import Mathlib

/-!
Verification of the convolvIR S/PDIF transmitter driver (`src/spdifTx.cpp`).

The driver keeps two 2-slot queues of audio-block pointers
(`leftAudioBuffer`, `rightAudioBuffer`), drained by a DMA interrupt
(`dmaISR`) and filled by the periodic producer (`update`).  We model block
pointers as natural numbers; the null pointer is `Option.none`, and the
static silence block `silentAudio` is a distinguished pointer value that is
never handed out by the audio graph's allocator.
-/

namespace SpdifTx

/-- A pointer to an `audio_block_t` (modelled as an abstract address). -/
abbrev Ptr := Nat

/-- Address of the static `silentAudio` block (`&silentAudio` in the source). -/
def silentAudio : Ptr := 0

/-- One channel's pending-block queue: `buf[0]` and `buf[1]` in the source
(`audio_block_t *leftAudioBuffer[2]`); `none` is the null pointer. -/
structure Queue where
  slot0 : Option Ptr
  slot1 : Option Ptr
deriving DecidableEq, Repr

/-- The shared mutable state of the driver: the two channel queues. -/
structure SpdifState where
  leftAudioBuffer : Queue
  rightAudioBuffer : Queue
deriving DecidableEq, Repr

/-- State established by `SpdifTx::init` (lines 57-61): all four slots null. -/
def initState : SpdifState := ⟨⟨none, none⟩, ⟨none, none⟩⟩

/-- Observable outcome of one `SpdifTx::dmaISR` firing: the queue state after
the firing, the blocks passed to `release`, and the two blocks handed to
`spdifInterleave` as encoder inputs. -/
structure ISRResult where
  state : SpdifState
  released : List Ptr
  leftAudio : Ptr
  rightAudio : Ptr
deriving DecidableEq, Repr

/-- `SpdifTx::dmaISR` (lines 69-96), restricted to its queue/release
behaviour.  `leftAudio = leftAudioBuffer[0] ?: &silentAudio` (line 78) and
symmetrically for the right channel; if both are distinct from
`&silentAudio` (line 84) the ISR releases both and rotates each queue left
by one slot (lines 86-92), otherwise the queues are untouched and nothing
is released. -/
def dmaISR (s : SpdifState) : ISRResult :=
  let leftAudio := s.leftAudioBuffer.slot0.getD silentAudio
  let rightAudio := s.rightAudioBuffer.slot0.getD silentAudio
  if leftAudio ≠ silentAudio ∧ rightAudio ≠ silentAudio then
    { state :=
        { leftAudioBuffer := ⟨s.leftAudioBuffer.slot1, none⟩
          rightAudioBuffer := ⟨s.rightAudioBuffer.slot1, none⟩ }
      released := [leftAudio, rightAudio]
      leftAudio := leftAudio
      rightAudio := rightAudio }
  else
    { state := s, released := [], leftAudio := leftAudio, rightAudio := rightAudio }

/-- The per-channel slot placement of `SpdifTx::update` (the "switcheroo"
blocks, lines 113-129 and 132-148): place the new block in the first null
slot, or, with both slots occupied, rotate slot 0 out, shift slot 1 into
slot 0 and put the new block in slot 1.  Returns the updated queue and the
final value of the local pointer (`none` when the block was placed, the
displaced slot-0 block on overrun). -/
def switcheroo (buf : Queue) (newBlock : Ptr) : Queue × Option Ptr :=
  if buf.slot0 = none then
    (⟨some newBlock, buf.slot1⟩, none)
  else if buf.slot1 = none then
    (⟨buf.slot0, some newBlock⟩, none)
  else
    (⟨buf.slot1, some newBlock⟩, buf.slot0)

/-- `SpdifTx::update` (lines 102-158).  `leftIn`/`rightIn` are the results
of the two `receiveReadOnly` calls (`none` = null).  If both are non-null,
each channel's queue is updated by its switcheroo block inside the critical
section; afterwards (lines 153-157) both locals are released iff both are
still non-null.  Returns the new state and the list of released blocks. -/
def update (s : SpdifState) (leftIn rightIn : Option Ptr) : SpdifState × List Ptr :=
  match leftIn, rightIn with
  | some l, some r =>
    let lres := switcheroo s.leftAudioBuffer l
    let rres := switcheroo s.rightAudioBuffer r
    let s' : SpdifState := ⟨lres.1, rres.1⟩
    match lres.2, rres.2 with
    | some leftAudio, some rightAudio => (s', [leftAudio, rightAudio])
    | _, _ => (s', [])
  | _, _ =>
    -- the big `if (leftAudio && rightAudio)` (line 109) is skipped, and the
    -- final release test (line 153) fails because at least one local is null
    (s, [])

/-- `SpdifTx::getTxOffset` (lines 167-170): return word offset `0x0100`
while the engine's source address has not reached
`txSourceAddress + sourceBufferSize`, else `0x0000`.  `saddr` is the live
`eDMA.TCD->SADDR` reading; all three arguments are 32-bit unsigned values,
so the comparison is taken modulo `2^32`. -/
def getTxOffset (saddr txSourceAddress sourceBufferSize : Nat) : Nat :=
  if saddr % 2 ^ 32 < (txSourceAddress + sourceBufferSize) % 2 ^ 32 then 0x0100 else 0x0000

/-! ### Sample encoder (`SpdifTx::spdifInterleave`, lines 180-201)

Memory holding 32-bit transfer words is a map from word index to value
(`fifoTx` has 512 words; `pTx` is a word index into it).  A C `int16_t`
sample is promoted to `int` before `<< 8`, so each written word equals the
sample times 256 — always representable in an `int32_t` since
`32768 * 256 < 2^31`, hence no wrap is modelled. -/

/-- A single 32-bit store `mem[i] = v`. -/
def store (mem : Nat → Int) (i : Nat) (v : Int) : Nat → Int :=
  fun j => if j = i then v else mem j

/-- One body of the interleave loop at index `i` (lines 189-199): eight
stores at word indices `pTx + 2*i` through `pTx + 2*i + 7`, alternating
left and right samples `i, i+1, i+2, i+3`, each shifted left 8 bits. -/
def interleaveIter (pTx : Nat) (l r : Nat → Int) (i : Nat) (mem : Nat → Int) : Nat → Int :=
  let m0 := store mem (pTx + 2 * i) (l i * 256)
  let m1 := store m0 (pTx + 2 * i + 1) (r i * 256)
  let m2 := store m1 (pTx + 2 * i + 2) (l (i + 1) * 256)
  let m3 := store m2 (pTx + 2 * i + 3) (r (i + 1) * 256)
  let m4 := store m3 (pTx + 2 * i + 4) (l (i + 2) * 256)
  let m5 := store m4 (pTx + 2 * i + 5) (r (i + 2) * 256)
  let m6 := store m5 (pTx + 2 * i + 6) (l (i + 3) * 256)
  store m6 (pTx + 2 * i + 7) (r (i + 3) * 256)

/-- The first `n` iterations of the loop `for (i = 0; i < 128; i += 4)`:
iteration `k` runs the body at `i = 4*k`. -/
def interleaveLoop (pTx : Nat) (l r : Nat → Int) (mem : Nat → Int) : Nat → Nat → Int
  | 0 => mem
  | n + 1 => interleaveIter pTx l r (4 * n) (interleaveLoop pTx l r mem n)

/-- `SpdifTx::spdifInterleave(pTx, l, r)` run on memory `mem`: all 32
iterations of the loop (`i = 0, 4, ..., 124`). -/
def spdifInterleave (pTx : Nat) (l r : Nat → Int) (mem : Nat → Int) : Nat → Int :=
  interleaveLoop pTx l r mem 32

/-- The word value the encoder produces at in-window distance `d` from the
window base: left sample `d/2` for even `d`, right sample `d/2` for odd
`d`, shifted left 8 bits. -/
def encodedWord (l r : Nat → Int) (d : Nat) : Int :=
  if d % 2 = 0 then l (d / 2) * 256 else r (d / 2) * 256

/-- Decoding step from the specification: an arithmetic right shift of a
32-bit word by 8 bit positions, i.e. floor division by `2^8`. -/
def decodeWord (w : Int) : Int := Int.fdiv w (2 ^ 8)

/-! ### Queue bookkeeping -/

/-- The pending blocks of a queue in service order (slot 0 first). -/
def Queue.toList (q : Queue) : List Ptr := q.slot0.toList ++ q.slot1.toList

/-- Number of occupied slots of a queue. -/
def Queue.count (q : Queue) : Nat := q.toList.length

/-- Shape invariant of one channel queue: a null entry never precedes a
non-null entry (slot 0 empty implies slot 1 empty). -/
def QueueInv (q : Queue) : Prop := q.slot0 = none → q.slot1 = none

/-- The queue never holds the address of the static silence block. -/
def NoSentinel (q : Queue) : Prop :=
  q.slot0 ≠ some silentAudio ∧ q.slot1 ≠ some silentAudio

/-- Shape invariant of the driver state, for both channels. -/
def StateShapeInv (s : SpdifState) : Prop :=
  QueueInv s.leftAudioBuffer ∧ QueueInv s.rightAudioBuffer

/-- Combined reachable-state invariant used for the lockstep/FIFO claims:
well-shaped queues of equal occupancy, free of the silence sentinel. -/
def LockstepInv (s : SpdifState) : Prop :=
  StateShapeInv s ∧
  Queue.count s.leftAudioBuffer = Queue.count s.rightAudioBuffer ∧
  NoSentinel s.leftAudioBuffer ∧ NoSentinel s.rightAudioBuffer

/-! ### Characterisation of the encoder's memory effect -/

/-- One loop body writes exactly the eight words `pTx + 2*i .. pTx + 2*i + 7`,
and at distance `d` from `pTx` the written value is `encodedWord l r d`. -/
lemma interleaveIter_eq (pTx : Nat) (l r : Nat → Int) (i : Nat) (mem : Nat → Int) (j : Nat) :
    interleaveIter pTx l r i mem j =
      if pTx + 2 * i ≤ j ∧ j < pTx + 2 * i + 8 then encodedWord l r (j - pTx) else mem j := by
  simp only [interleaveIter, store, encodedWord]
  by_cases h7 : j = pTx + 2 * i + 7
  · rw [if_pos h7, if_pos (by omega), if_neg (show ¬(j - pTx) % 2 = 0 by omega),
      show (j - pTx) / 2 = i + 3 by omega]
  rw [if_neg h7]
  by_cases h6 : j = pTx + 2 * i + 6
  · rw [if_pos h6, if_pos (by omega), if_pos (show (j - pTx) % 2 = 0 by omega),
      show (j - pTx) / 2 = i + 3 by omega]
  rw [if_neg h6]
  by_cases h5 : j = pTx + 2 * i + 5
  · rw [if_pos h5, if_pos (by omega), if_neg (show ¬(j - pTx) % 2 = 0 by omega),
      show (j - pTx) / 2 = i + 2 by omega]
  rw [if_neg h5]
  by_cases h4 : j = pTx + 2 * i + 4
  · rw [if_pos h4, if_pos (by omega), if_pos (show (j - pTx) % 2 = 0 by omega),
      show (j - pTx) / 2 = i + 2 by omega]
  rw [if_neg h4]
  by_cases h3 : j = pTx + 2 * i + 3
  · rw [if_pos h3, if_pos (by omega), if_neg (show ¬(j - pTx) % 2 = 0 by omega),
      show (j - pTx) / 2 = i + 1 by omega]
  rw [if_neg h3]
  by_cases h2 : j = pTx + 2 * i + 2
  · rw [if_pos h2, if_pos (by omega), if_pos (show (j - pTx) % 2 = 0 by omega),
      show (j - pTx) / 2 = i + 1 by omega]
  rw [if_neg h2]
  by_cases h1 : j = pTx + 2 * i + 1
  · rw [if_pos h1, if_pos (by omega), if_neg (show ¬(j - pTx) % 2 = 0 by omega),
      show (j - pTx) / 2 = i by omega]
  rw [if_neg h1]
  by_cases h0 : j = pTx + 2 * i
  · rw [if_pos h0, if_pos (by omega), if_pos (show (j - pTx) % 2 = 0 by omega),
      show (j - pTx) / 2 = i by omega]
  rw [if_neg h0, if_neg (by omega)]

/-- After `n` loop iterations exactly the words `pTx .. pTx + 8*n - 1` have
been written, with the interleaved values; everything else is untouched. -/
lemma interleaveLoop_eq (pTx : Nat) (l r : Nat → Int) (mem : Nat → Int) :
    ∀ n j, interleaveLoop pTx l r mem n j =
      if pTx ≤ j ∧ j < pTx + 8 * n then encodedWord l r (j - pTx) else mem j := by
  intro n
  induction n with
  | zero =>
    intro j
    rw [interleaveLoop, if_neg (by omega)]
  | succ n ih =>
    intro j
    rw [interleaveLoop, interleaveIter_eq, ih]
    split_ifs <;> first | rfl | (exfalso; omega)

/-- `spdifInterleave` fills exactly the 256-word window starting at `pTx`. -/
lemma spdifInterleave_eq (pTx : Nat) (l r : Nat → Int) (mem : Nat → Int) (j : Nat) :
    spdifInterleave pTx l r mem j =
      if pTx ≤ j ∧ j < pTx + 256 then encodedWord l r (j - pTx) else mem j := by
  rw [spdifInterleave, interleaveLoop_eq]

/-! ### Behaviour of the producer's slot placement -/

/-- Effect of one channel's switcheroo block on a well-shaped queue: below
capacity the new block is appended behind the pending ones and nothing is
displaced; at capacity the front (oldest) block is displaced and the new
block appended behind the survivor.  The result is again well shaped, holds
`min (count + 1) 2` blocks, and always has slot 0 occupied. -/
lemma switcheroo_spec (q : Queue) (b : Ptr) (hq : QueueInv q) :
    (switcheroo q b).1.toList =
      (if q.count < 2 then q.toList ++ [b] else q.toList.tail ++ [b]) ∧
    (switcheroo q b).2 = (if q.count < 2 then none else q.slot0) ∧
    (switcheroo q b).1.count = min (q.count + 1) 2 ∧
    QueueInv (switcheroo q b).1 := by
  rcases q with ⟨_ | a, _ | c⟩
  · simp [switcheroo, Queue.toList, Queue.count, QueueInv]
  · exact absurd (hq rfl) (by simp)
  · simp [switcheroo, Queue.toList, Queue.count, QueueInv]
  · simp [switcheroo, Queue.toList, Queue.count, QueueInv]

/-- The switcheroo never introduces the sentinel into the queue. -/
lemma switcheroo_noSentinel (q : Queue) (b : Ptr) (hq : NoSentinel q)
    (hb : b ≠ silentAudio) : NoSentinel (switcheroo q b).1 := by
  rcases q with ⟨_ | a, _ | c⟩ <;>
    simp_all [switcheroo, NoSentinel]

/-- In both branches of the ISR, the left encoder input is the front of the
left queue with the silence block substituted for null. -/
lemma dmaISR_leftAudio_eq (s : SpdifState) :
    (dmaISR s).leftAudio = s.leftAudioBuffer.slot0.getD silentAudio := by
  simp only [dmaISR]
  split <;> rfl

/-- In both branches of the ISR, the right encoder input is the front of
the right queue with the silence block substituted for null. -/
lemma dmaISR_rightAudio_eq (s : SpdifState) :
    (dmaISR s).rightAudio = s.rightAudioBuffer.slot0.getD silentAudio := by
  simp only [dmaISR]
  split <;> rfl

/-- The state and releases of `update` when both channels deliver a block:
each queue is updated by its switcheroo. -/
lemma update_state_eq (s : SpdifState) (l r : Ptr) :
    (update s (some l) (some r)).1 =
      ⟨(switcheroo s.leftAudioBuffer l).1, (switcheroo s.rightAudioBuffer r).1⟩ := by
  simp only [update]
  rcases h1 : (switcheroo s.leftAudioBuffer l).2 with _ | la <;>
    rcases h2 : (switcheroo s.rightAudioBuffer r).2 with _ | ra <;>
      simp [h1, h2]

/-- `update` releases the two displaced blocks exactly when both channels
displaced one. -/
lemma update_released_eq (s : SpdifState) (l r : Ptr) :
    (update s (some l) (some r)).2 =
      match (switcheroo s.leftAudioBuffer l).2, (switcheroo s.rightAudioBuffer r).2 with
      | some la, some ra => [la, ra]
      | _, _ => [] := by
  simp only [update]
  rcases h1 : (switcheroo s.leftAudioBuffer l).2 with _ | la <;>
    rcases h2 : (switcheroo s.rightAudioBuffer r).2 with _ | ra <;>
      simp [h1, h2]

/-! ### The claims -/

/-- C1: for every `dmaISR` firing in which both channel queues hold a real
block at slot 0 (neither front is the silence sentinel), exactly the two
front blocks are released — one per channel — and each queue rotates left
by one position: slot 0 receives the old slot 1 and slot 1 becomes empty. -/
theorem C1_dmaISR_both_real_releases_and_rotates (s : SpdifState) (lb rb : Ptr)
    (hl : s.leftAudioBuffer.slot0 = some lb) (hlr : lb ≠ silentAudio)
    (hr : s.rightAudioBuffer.slot0 = some rb) (hrr : rb ≠ silentAudio) :
    (dmaISR s).released = [lb, rb] ∧
    (dmaISR s).state.leftAudioBuffer.slot0 = s.leftAudioBuffer.slot1 ∧
    (dmaISR s).state.leftAudioBuffer.slot1 = none ∧
    (dmaISR s).state.rightAudioBuffer.slot0 = s.rightAudioBuffer.slot1 ∧
    (dmaISR s).state.rightAudioBuffer.slot1 = none := by
  simp [dmaISR, hl, hr, hlr, hrr]

/-- Witness for C1 at a concrete full state. -/
theorem C1_witness :
    (dmaISR ⟨⟨some 1, some 2⟩, ⟨some 3, some 4⟩⟩).released = [1, 3] ∧
    (dmaISR ⟨⟨some 1, some 2⟩, ⟨some 3, some 4⟩⟩).state.leftAudioBuffer.slot0 = some 2 ∧
    (dmaISR ⟨⟨some 1, some 2⟩, ⟨some 3, some 4⟩⟩).state.leftAudioBuffer.slot1 = none ∧
    (dmaISR ⟨⟨some 1, some 2⟩, ⟨some 3, some 4⟩⟩).state.rightAudioBuffer.slot0 = some 4 ∧
    (dmaISR ⟨⟨some 1, some 2⟩, ⟨some 3, some 4⟩⟩).state.rightAudioBuffer.slot1 = none :=
  C1_dmaISR_both_real_releases_and_rotates _ 1 3 rfl (by decide) rfl (by decide)

/-- C3: whenever a channel's queue is empty at slot 0, the silence block is
that channel's encoder input; the silence block is never in the released
list; and if either consumed block is the silence block, nothing is
released and the queues are untouched, so a real block on the other
channel stays queued. -/
theorem C3_dmaISR_silence_never_released (s : SpdifState) :
    (s.leftAudioBuffer.slot0 = none → (dmaISR s).leftAudio = silentAudio) ∧
    (s.rightAudioBuffer.slot0 = none → (dmaISR s).rightAudio = silentAudio) ∧
    silentAudio ∉ (dmaISR s).released ∧
    ((dmaISR s).leftAudio = silentAudio ∨ (dmaISR s).rightAudio = silentAudio →
      (dmaISR s).released = [] ∧ (dmaISR s).state = s) := by
  refine ⟨?_, ?_, ?_, ?_⟩
  · intro h
    rw [dmaISR_leftAudio_eq, h]
    rfl
  · intro h
    rw [dmaISR_rightAudio_eq, h]
    rfl
  · simp only [dmaISR]
    split
    · rename_i h
      simp only [List.mem_cons, List.not_mem_nil, or_false]
      rintro (h1 | h2)
      · exact h.1 h1.symm
      · exact h.2 h2.symm
    · simp
  · intro h
    simp only [dmaISR_leftAudio_eq, dmaISR_rightAudio_eq] at h
    simp only [dmaISR]
    split
    · rename_i hc
      rcases h with h | h
      · exact absurd h hc.1
      · exact absurd h hc.2
    · exact ⟨rfl, rfl⟩

/-- Witness for C3 at the empty state: silence is encoded on the left
channel, nothing is released, the state is untouched. -/
theorem C3_witness :
    (dmaISR initState).leftAudio = silentAudio ∧
    (dmaISR initState).released = [] ∧ (dmaISR initState).state = initState := by
  have h := C3_dmaISR_silence_never_released initState
  have h1 := h.1 rfl
  exact ⟨h1, (h.2.2.2 (Or.inl h1)).1, (h.2.2.2 (Or.inl h1)).2⟩

/-- C2: a channel queue structurally never holds more than 2 occupied
slots after any `update` call, and on a call where both channels deliver
and both slots of each queue are occupied, slot 0 is evicted, slot 1
shifts into slot 0, the new block goes into slot 1, and exactly the two
evicted blocks (one per channel) are released after the critical
section. -/
theorem C2_update_overrun_evicts_oldest (s : SpdifState) (l r l0 l1 r0 r1 : Ptr)
    (hl0 : s.leftAudioBuffer.slot0 = some l0) (hl1 : s.leftAudioBuffer.slot1 = some l1)
    (hr0 : s.rightAudioBuffer.slot0 = some r0) (hr1 : s.rightAudioBuffer.slot1 = some r1) :
    (∀ t lIn rIn, Queue.count (update t lIn rIn).1.leftAudioBuffer ≤ 2 ∧
      Queue.count (update t lIn rIn).1.rightAudioBuffer ≤ 2) ∧
    (update s (some l) (some r)).1 = ⟨⟨some l1, some l⟩, ⟨some r1, some r⟩⟩ ∧
    (update s (some l) (some r)).2 = [l0, r0] := by
  refine ⟨?_, ?_, ?_⟩
  · intro t lIn rIn
    constructor <;>
      · rcases (update t lIn rIn).1.leftAudioBuffer with ⟨_ | a, _ | b⟩ <;>
        rcases (update t lIn rIn).1.rightAudioBuffer with ⟨_ | c, _ | d⟩ <;>
          simp [Queue.count, Queue.toList]
  · rw [update_state_eq]
    simp [switcheroo, hl0, hl1, hr0, hr1]
  · rw [update_released_eq]
    simp [switcheroo, hl0, hl1, hr0, hr1]

/-- Witness for C2 at a concrete full state. -/
theorem C2_witness :
    (update ⟨⟨some 1, some 2⟩, ⟨some 3, some 4⟩⟩ (some 5) (some 6)).1 =
      ⟨⟨some 2, some 5⟩, ⟨some 4, some 6⟩⟩ ∧
    (update ⟨⟨some 1, some 2⟩, ⟨some 3, some 4⟩⟩ (some 5) (some 6)).2 = [1, 3] :=
  ⟨(C2_update_overrun_evicts_oldest _ 5 6 1 2 3 4 rfl rfl rfl rfl).2.1,
   (C2_update_overrun_evicts_oldest _ 5 6 1 2 3 4 rfl rfl rfl rfl).2.2⟩

/-- C7 fails on the code: when `update` receives a block on exactly one
channel, the block is neither queued (the state is unchanged) nor
released (the released list is empty) — it is leaked, contradicting the
ownership rule that every accepted block is queued or released. -/
theorem C7_update_partial_delivery_leaks (s : SpdifState) (p : Ptr) :
    update s (some p) none = (s, []) ∧ update s none (some p) = (s, []) :=
  ⟨rfl, rfl⟩

/-- C4 as stated is false at the midpoint boundary: with the transmit
buffer based at `0x20000000` and a 1024-byte half, the engine address
exactly at the midpoint yields the first half's offset `0x0000`, not the
second half's `0x0100`. -/
theorem C4_counterexample :
    getTxOffset (0x20000000 + 1024) 0x20000000 1024 = 0x0000 ∧
    getTxOffset (0x20000000 + 1024) 0x20000000 1024 ≠ 0x0100 := by
  constructor <;> decide

/-- C4 amended: for an engine source address within the circular buffer,
an address strictly within the first half yields the second half's offset
`0x0100`, while an address at or past the midpoint — the midpoint boundary
belongs to "crossed" under the strict less-than comparison — yields the
first half's offset `0x0000`. -/
theorem C4_getTxOffset_targets_other_half (base saddr : Nat)
    (hfit : base + 2048 ≤ 2 ^ 32) (hlo : base ≤ saddr) (hhi : saddr < base + 2048) :
    getTxOffset saddr base 1024 = if saddr < base + 1024 then 0x0100 else 0x0000 := by
  unfold getTxOffset
  rw [Nat.mod_eq_of_lt (by omega), Nat.mod_eq_of_lt (by omega)]

/-- Witness for the amended C4 on both sides of the midpoint. -/
theorem C4_witness :
    getTxOffset 0x20000000 0x20000000 1024 = 0x0100 ∧
    getTxOffset (0x20000000 + 1500) 0x20000000 1024 = 0x0000 := by
  have h1 := C4_getTxOffset_targets_other_half 0x20000000 0x20000000
    (by norm_num) (by norm_num) (by norm_num)
  have h2 := C4_getTxOffset_targets_other_half 0x20000000 (0x20000000 + 1500)
    (by norm_num) (by norm_num) (by norm_num)
  rw [h1, h2]
  norm_num

/-- C5: for 16-bit left and right sample arrays, `spdifInterleave` fills
exactly the 256-word window at `pTx`, interleaved left, right, left,
right…: word `2*i` is left sample `i` shifted left 8 bits (times `256`,
exactly, with no rounding or clamping), word `2*i + 1` is right sample `i`
shifted likewise, and no word outside the window is modified. -/
theorem C5_spdifInterleave_interleaves (pTx : Nat) (l r mem : Nat → Int)
    (hl : ∀ i, i < 128 → -32768 ≤ l i ∧ l i ≤ 32767)
    (hr : ∀ i, i < 128 → -32768 ≤ r i ∧ r i ≤ 32767) :
    (∀ i, i < 128 →
      spdifInterleave pTx l r mem (pTx + 2 * i) = l i * 256 ∧
      spdifInterleave pTx l r mem (pTx + 2 * i + 1) = r i * 256) ∧
    (∀ j, j < pTx ∨ pTx + 256 ≤ j → spdifInterleave pTx l r mem j = mem j) := by
  constructor
  · intro i hi
    constructor
    · rw [spdifInterleave_eq, if_pos (by omega)]
      unfold encodedWord
      rw [if_pos (by omega), show (pTx + 2 * i - pTx) / 2 = i by omega]
    · rw [spdifInterleave_eq, if_pos (by omega)]
      unfold encodedWord
      rw [if_neg (by omega), show (pTx + 2 * i + 1 - pTx) / 2 = i by omega]
  · intro j hj
    rw [spdifInterleave_eq, if_neg (by omega)]

/-- Witness for C5 with constant sample data at window base 0. -/
theorem C5_witness :
    spdifInterleave 0 (fun _ => 3) (fun _ => 7) (fun _ => 0) (0 + 2 * 1) = 3 * 256 ∧
    spdifInterleave 0 (fun _ => 3) (fun _ => 7) (fun _ => 0) (0 + 2 * 1 + 1) = 7 * 256 :=
  (C5_spdifInterleave_interleaves 0 (fun _ => 3) (fun _ => 7) (fun _ => 0)
    (fun _ _ => by norm_num) (fun _ _ => by norm_num)).1 1 (by norm_num)

/-- C6: encoding any in-range 16-bit (left, right) pair with
`spdifInterleave` and decoding the produced 32-bit words by an arithmetic
right shift of 8 bits recovers the original samples exactly. -/
theorem C6_encode_decode_round_trip (pTx : Nat) (l r mem : Nat → Int)
    (hl : ∀ i, i < 128 → -32767 ≤ l i ∧ l i ≤ 32767)
    (hr : ∀ i, i < 128 → -32767 ≤ r i ∧ r i ≤ 32767)
    (i : Nat) (hi : i < 128) :
    decodeWord (spdifInterleave pTx l r mem (pTx + 2 * i)) = l i ∧
    decodeWord (spdifInterleave pTx l r mem (pTx + 2 * i + 1)) = r i := by
  constructor
  · rw [spdifInterleave_eq, if_pos (by omega)]
    unfold encodedWord decodeWord
    rw [if_pos (by omega), show (pTx + 2 * i - pTx) / 2 = i by omega]
    exact Int.mul_fdiv_cancel _ (by norm_num)
  · rw [spdifInterleave_eq, if_pos (by omega)]
    unfold encodedWord decodeWord
    rw [if_neg (by omega), show (pTx + 2 * i + 1 - pTx) / 2 = i by omega]
    exact Int.mul_fdiv_cancel _ (by norm_num)

/-- Witness for C6 at the extreme sample values ±32767. -/
theorem C6_witness :
    decodeWord (spdifInterleave 0 (fun _ => 32767) (fun _ => -32767) (fun _ => 0) (0 + 2 * 0)) =
      32767 ∧
    decodeWord (spdifInterleave 0 (fun _ => 32767) (fun _ => -32767) (fun _ => 0) (0 + 2 * 0 + 1)) =
      -32767 :=
  C6_encode_decode_round_trip 0 (fun _ => 32767) (fun _ => -32767) (fun _ => 0)
    (fun _ _ => by norm_num) (fun _ _ => by norm_num) 0 (by norm_num)

/-- C10: every ISR write into the circular transmit buffer is in bounds
and confined to one half: `getTxOffset` yields only word offsets `0x0100`
or `0x0000`, the 256-word window starting there lies inside the 512-word
`fifoTx`, and `spdifInterleave` modifies no word outside that window. -/
theorem C10_writes_in_bounds_one_half (saddr base : Nat) (l r mem : Nat → Int) :
    (getTxOffset saddr base 1024 = 0x0100 ∨ getTxOffset saddr base 1024 = 0x0000) ∧
    getTxOffset saddr base 1024 + 256 ≤ 512 ∧
    (∀ j, spdifInterleave (getTxOffset saddr base 1024) l r mem j ≠ mem j →
      getTxOffset saddr base 1024 ≤ j ∧ j < getTxOffset saddr base 1024 + 256) := by
  refine ⟨?_, ?_, ?_⟩
  · unfold getTxOffset
    split
    · exact Or.inl rfl
    · exact Or.inr rfl
  · unfold getTxOffset
    split <;> norm_num
  · intro j hj
    by_contra hcon
    exact hj (by rw [spdifInterleave_eq, if_neg (by omega)])

/-- Witness for C10: at engine address 0 the target is the second half,
and a changed word (index 256) indeed lies inside the target window. -/
theorem C10_witness :
    getTxOffset 0 0 1024 ≤ 256 ∧ 256 < getTxOffset 0 0 1024 + 256 := by
  have hoff : getTxOffset 0 0 1024 = 0x0100 := by decide
  refine (C10_writes_in_bounds_one_half 0 0 (fun _ => 1) (fun _ => 1) (fun _ => 0)).2.2 256 ?_
  rw [hoff, spdifInterleave_eq, if_pos (by omega)]
  unfold encodedWord
  norm_num

/-- C8: the per-queue shape invariant — a null entry never precedes a
non-null one (slot 0 empty implies slot 1 empty) — holds for the state
`init` establishes and is preserved by every `update` call and by every
ISR firing. -/
theorem C8_null_never_precedes_nonnull :
    StateShapeInv initState ∧
    (∀ s lIn rIn, StateShapeInv s → StateShapeInv (update s lIn rIn).1) ∧
    (∀ s, StateShapeInv s → StateShapeInv (dmaISR s).state) := by
  refine ⟨⟨fun _ => rfl, fun _ => rfl⟩, ?_, ?_⟩
  · intro s lIn rIn hs
    rcases lIn with _ | l
    · exact hs
    rcases rIn with _ | r
    · exact hs
    rw [update_state_eq]
    exact ⟨(switcheroo_spec s.leftAudioBuffer l hs.1).2.2.2,
      (switcheroo_spec s.rightAudioBuffer r hs.2).2.2.2⟩
  · intro s hs
    simp only [dmaISR]
    split
    · exact ⟨fun _ => rfl, fun _ => rfl⟩
    · exact hs

/-- Witness for C8 at the initial state and one step of each kind. -/
theorem C8_witness :
    StateShapeInv initState ∧
    StateShapeInv (update initState (some 1) (some 2)).1 ∧
    StateShapeInv (dmaISR initState).state := by
  obtain ⟨h1, h2, h3⟩ := C8_null_never_precedes_nonnull
  exact ⟨h1, h2 initState (some 1) (some 2) h1, h3 initState h1⟩

/-- C9: left and right queues advance in lockstep with equal occupancy and
are consumed in FIFO order.  From the initial state, the combined
invariant (well-shaped, sentinel-free queues of equal occupancy) is
preserved by `update` (for real incoming blocks) and by the ISR; an
`update` with a missing channel places nothing in either queue and
releases nothing; an `update` with both channels appends the new block at
the back of both queues (dropping the front when full); and an ISR firing
either touches neither queue and releases nothing, or releases exactly
both fronts and drops them from both queues, preserving order. -/
theorem C9_lockstep_and_fifo :
    LockstepInv initState ∧
    (∀ s lIn rIn, LockstepInv s → lIn ≠ some silentAudio → rIn ≠ some silentAudio →
      LockstepInv (update s lIn rIn).1) ∧
    (∀ s lIn rIn, lIn = none ∨ rIn = none →
      (update s lIn rIn).1 = s ∧ (update s lIn rIn).2 = []) ∧
    (∀ s lb rb, LockstepInv s →
      Queue.toList (update s (some lb) (some rb)).1.leftAudioBuffer =
        (if Queue.count s.leftAudioBuffer < 2 then Queue.toList s.leftAudioBuffer ++ [lb]
         else (Queue.toList s.leftAudioBuffer).tail ++ [lb]) ∧
      Queue.toList (update s (some lb) (some rb)).1.rightAudioBuffer =
        (if Queue.count s.rightAudioBuffer < 2 then Queue.toList s.rightAudioBuffer ++ [rb]
         else (Queue.toList s.rightAudioBuffer).tail ++ [rb])) ∧
    (∀ s, LockstepInv s →
      ((dmaISR s).released = [] ∧ (dmaISR s).state = s) ∨
      ((dmaISR s).released =
          (Queue.toList s.leftAudioBuffer).take 1 ++ (Queue.toList s.rightAudioBuffer).take 1 ∧
        Queue.toList (dmaISR s).state.leftAudioBuffer =
          (Queue.toList s.leftAudioBuffer).drop 1 ∧
        Queue.toList (dmaISR s).state.rightAudioBuffer =
          (Queue.toList s.rightAudioBuffer).drop 1)) := by
  refine ⟨?_, ?_, ?_, ?_, ?_⟩
  · exact ⟨⟨fun _ => rfl, fun _ => rfl⟩, rfl, by simp [NoSentinel, initState],
      by simp [NoSentinel, initState]⟩
  · intro s lIn rIn hs hln hrn
    rcases lIn with _ | l
    · exact hs
    rcases rIn with _ | r
    · exact hs
    obtain ⟨⟨hql, hqr⟩, hcnt, hnl, hnr⟩ := hs
    have Hl := switcheroo_spec s.leftAudioBuffer l hql
    have Hr := switcheroo_spec s.rightAudioBuffer r hqr
    rw [update_state_eq]
    refine ⟨⟨Hl.2.2.2, Hr.2.2.2⟩, ?_, switcheroo_noSentinel _ _ hnl (by simpa using hln),
      switcheroo_noSentinel _ _ hnr (by simpa using hrn)⟩
    rw [Hl.2.2.1, Hr.2.2.1, hcnt]
  · intro s lIn rIn h
    rcases lIn with _ | l
    · exact ⟨rfl, rfl⟩
    rcases rIn with _ | r
    · exact ⟨rfl, rfl⟩
    rcases h with h | h <;> exact absurd h (by simp)
  · intro s lb rb hs
    obtain ⟨⟨hql, hqr⟩, _, _, _⟩ := hs
    rw [update_state_eq]
    exact ⟨(switcheroo_spec s.leftAudioBuffer lb hql).1,
      (switcheroo_spec s.rightAudioBuffer rb hqr).1⟩
  · intro s hs
    by_cases h : s.leftAudioBuffer.slot0.getD silentAudio ≠ silentAudio ∧
        s.rightAudioBuffer.slot0.getD silentAudio ≠ silentAudio
    · right
      rcases hl0 : s.leftAudioBuffer.slot0 with _ | lb
      · rw [hl0] at h
        simp at h
      rcases hr0 : s.rightAudioBuffer.slot0 with _ | rb
      · rw [hr0] at h
        simp at h
      rw [hl0, hr0] at h
      simp only [Option.getD_some] at h
      refine ⟨?_, ?_, ?_⟩ <;>
        simp [dmaISR, hl0, hr0, h.1, h.2, Queue.toList]
    · left
      simp only [dmaISR]
      rw [if_neg h]
      exact ⟨rfl, rfl⟩

/-- Witness for C9: one producer step from empty, a skipped partial
delivery, and an ISR firing on a one-deep state consuming both fronts. -/
theorem C9_witness :
    LockstepInv (update initState (some 1) (some 2)).1 ∧
    (update initState none (some 3)).1 = initState ∧
    (((dmaISR ⟨⟨some 1, none⟩, ⟨some 2, none⟩⟩).released = [] ∧
        (dmaISR ⟨⟨some 1, none⟩, ⟨some 2, none⟩⟩).state = ⟨⟨some 1, none⟩, ⟨some 2, none⟩⟩) ∨
      ((dmaISR ⟨⟨some 1, none⟩, ⟨some 2, none⟩⟩).released =
          (Queue.toList ⟨some 1, none⟩).take 1 ++ (Queue.toList ⟨some 2, none⟩).take 1 ∧
        Queue.toList (dmaISR ⟨⟨some 1, none⟩, ⟨some 2, none⟩⟩).state.leftAudioBuffer =
          (Queue.toList ⟨some 1, none⟩).drop 1 ∧
        Queue.toList (dmaISR ⟨⟨some 1, none⟩, ⟨some 2, none⟩⟩).state.rightAudioBuffer =
          (Queue.toList ⟨some 2, none⟩).drop 1)) := by
  obtain ⟨h0, h1, h2, _, h4⟩ := C9_lockstep_and_fifo
  have hs1 : LockstepInv ⟨⟨some 1, none⟩, ⟨some 2, none⟩⟩ :=
    ⟨⟨fun _ => rfl, fun _ => rfl⟩, rfl, by simp [NoSentinel, silentAudio],
      by simp [NoSentinel, silentAudio]⟩
  exact ⟨h1 initState (some 1) (some 2) h0 (by decide) (by decide),
    (h2 initState none (some 3) (Or.inl rfl)).1, h4 _ hs1⟩

end SpdifTx
